import Mathlib

/-!
Verification of the asynchronous task-orchestration subsystem and the
storage-backend abstraction of the ftw-inference-api server.

The Lean definitions below are a shallow embedding of the Python source:

* `server/app/core/queue.py` (`InMemoryQueue`: `submit`, `get_status`,
  `cancel`, `worker`, `_process_task`),
* `server/app/core/task_manager.py` (`TaskManager.get_task_status`,
  `TaskManager.cleanup_completed_tasks`),
* `server/app/core/storage.py` (`LocalStorage` and `SourceCoopStorage`).

Python dictionaries are modelled as association lists with insertion-order
preserving overwrite (`setVal`), wall-clock readings (`pendulum.now`,
`asyncio.get_event_loop().time()`) as explicit `Nat` parameters threaded in
call order, and `await`ed external effects (the task handlers, the S3 API)
as explicit outcome values.
-/

namespace FTW

/-- Dictionary lookup (`d[k]` / `k in d`) over an association list. -/
def getVal {α β : Type} [DecidableEq α] : List (α × β) → α → Option β
  | [], _ => none
  | (k', v) :: rest, k => if k' = k then some v else getVal rest k

/-- Dictionary assignment `d[k] = v`: overwrites in place, preserving
insertion order, appending at the end when the key is new. -/
def setVal {α β : Type} [DecidableEq α] : List (α × β) → α → β → List (α × β)
  | [], k, v => [(k, v)]
  | (k', v') :: rest, k, v =>
    if k' = k then (k, v) :: rest else (k', v') :: setVal rest k v

/-- Dictionary deletion `del d[k]`. -/
def delVal {α β : Type} [DecidableEq α] : List (α × β) → α → List (α × β)
  | [], _ => []
  | (k', v') :: rest, k => if k' = k then rest else (k', v') :: delVal rest k

/-- `app.core.types.TaskStatus` (values "pending", "running", "completed",
"failed"; the Python ledger stores the string value, the enum and its value
are in bijection). -/
inductive TaskStatus
  | pending
  | running
  | completed
  | failed
deriving DecidableEq, Repr

/-- `app.core.types.TaskType`. -/
inductive TaskType
  | inference
  | polygonize
deriving DecidableEq, Repr

/-- `TaskType.value` in Python. -/
def TaskType.toStr : TaskType → String
  | .inference => "inference"
  | .polygonize => "polygonize"

/-- One row of `InMemoryQueue.active_tasks` (the task ledger): the dict
built by `submit` and mutated by `cancel` and `_process_task`
(`queue.py` lines 70-80).  `result` is an opaque handler value, modelled
as a string. -/
structure TaskRecord where
  status : TaskStatus
  taskType : String
  projectId : Option String
  createdAt : Nat
  updatedAt : Nat
  startedAt : Option Nat
  completedAt : Option Nat
  error : Option String
  result : Option String
deriving DecidableEq, Repr

/-- The payload enqueued by `submit` (`task_data`, `queue.py` line 67):
id, task type string, and the payload's project id. -/
structure TaskData where
  id : String
  taskType : String
  projectId : Option String
deriving DecidableEq, Repr

/-- The ledger `active_tasks : dict[str, dict]`. -/
abbrev Ledger := List (String × TaskRecord)

/-- The mutable state of an `InMemoryQueue`: the ledger plus the FIFO
`asyncio.Queue` (head = front). -/
structure QueueState where
  activeTasks : Ledger
  queue : List TaskData
deriving DecidableEq, Repr

/-- `InMemoryQueue.submit` (`queue.py` lines 63-84): fresh id `taskId`
(uuid4, passed explicitly), a PENDING ledger row with
`created_at = updated_at = now` and all other fields `None`, then the
payload is appended to the queue tail.  Returns the task id. -/
def submit (s : QueueState) (taskId : String) (taskType : TaskType)
    (projectId : Option String) (now : Nat) : String × QueueState :=
  let row : TaskRecord :=
    { status := TaskStatus.pending
      taskType := taskType.toStr
      projectId := projectId
      createdAt := now
      updatedAt := now
      startedAt := none
      completedAt := none
      error := none
      result := none }
  (taskId,
   { activeTasks := setVal s.activeTasks taskId row
     queue := s.queue ++ [⟨taskId, taskType.toStr, projectId⟩] })

/-- `InMemoryQueue.cancel` (`queue.py` lines 114-129): unknown id →
`False`; PENDING → mark FAILED with `error = "Task cancelled"` and
`updated_at = completed_at = now`, return `True`; any other status →
`False`, state untouched. -/
def cancel (s : QueueState) (taskId : String) (now : Nat) : Bool × QueueState :=
  match getVal s.activeTasks taskId with
  | none => (false, s)
  | some r =>
    if r.status = TaskStatus.pending then
      (true,
       { s with
          activeTasks := setVal s.activeTasks taskId
            { r with
                status := TaskStatus.failed
                error := some "Task cancelled"
                updatedAt := now
                completedAt := some now } })
    else (false, s)

/-- `InMemoryQueue.get_status` (`queue.py` lines 86-112): unknown id →
`raise ValueError(f"Task ... not found")`, modelled as `Except.error`;
otherwise the ledger row is returned (the Python code repackages it as a
`TaskInfo` dataclass field for field). -/
def getStatus (s : QueueState) (taskId : String) : Except String TaskRecord :=
  match getVal s.activeTasks taskId with
  | none => Except.error ("Task " ++ taskId ++ " not found")
  | some r => Except.ok r

/-- `TaskManager.get_task_status` (`task_manager.py` lines 36-40): returns
the row's status when the id is known and the default
`TaskStatus.PENDING` when it is not. -/
def tmGetTaskStatus (tasks : Ledger) (taskId : String) : TaskStatus :=
  match getVal tasks taskId with
  | some r => r.status
  | none => TaskStatus.pending

/-- The outcome of `await processor(task)` inside `_process_task`:
either a returned result or a raised exception, carried as its
`str(e)` rendering. -/
inductive HandlerOutcome
  | success (result : String)
  | failure (msg : String)
deriving DecidableEq, Repr

/-- First half of `InMemoryQueue._process_task` (`queue.py` lines
175-177): the row mutation performed before the handler is resolved:
status RUNNING, `started_at` and `updated_at` set to now (the two
adjacent `pendulum.now` calls are modelled as the same instant). -/
def startRecord (r : TaskRecord) (tStart : Nat) : TaskRecord :=
  { r with
      status := TaskStatus.running
      startedAt := some tStart
      updatedAt := tStart }

/-- The ledger after the pre-handler mutation of `_process_task`
(guarded by `if task_id not in self.active_tasks: return`). -/
def processTaskStart (l : Ledger) (t : TaskData) (tStart : Nat) : Ledger :=
  match getVal l t.id with
  | none => l
  | some r => setVal l t.id (startRecord r tStart)

/-- Second half of `_process_task` (`queue.py` lines 179-199): on handler
success, status COMPLETED and `result` stored; on a caught exception,
status FAILED and `error = str(e)`; in both cases the `finally` block
sets `updated_at` and `completed_at` to now. -/
def finishRecord (r : TaskRecord) (o : HandlerOutcome) (tEnd : Nat) : TaskRecord :=
  let r1 :=
    match o with
    | .success res => { r with status := TaskStatus.completed, result := some res }
    | .failure msg => { r with status := TaskStatus.failed, error := some msg }
  { r1 with updatedAt := tEnd, completedAt := some tEnd }

/-- The ledger after the post-handler mutation of `_process_task`. -/
def processTaskFinish (l : Ledger) (t : TaskData) (o : HandlerOutcome)
    (tEnd : Nat) : Ledger :=
  match getVal l t.id with
  | none => l
  | some r => setVal l t.id (finishRecord r o tEnd)

/-- `InMemoryQueue._process_task` (`queue.py` lines 167-199) end to end:
return unchanged when the id is not in the ledger, otherwise the start
mutation, the handler (whose outcome `o` is passed in), and the finish
mutation. -/
def processTask (l : Ledger) (t : TaskData) (o : HandlerOutcome)
    (tStart tEnd : Nat) : Ledger :=
  match getVal l t.id with
  | none => l
  | some _ => processTaskFinish (processTaskStart l t tStart) t o tEnd

/-- Whether `_process_task` reaches `await processor(task)` (`queue.py`
lines 172-184): it does exactly when the id is in the ledger (the top
guard) and a processor is registered for the task type (otherwise the
`ValueError` is raised before any handler runs). -/
def processorInvoked (l : Ledger) (t : TaskData)
    (registered : List String) : Bool :=
  (getVal l t.id).isSome && registered.contains t.taskType

/-- One dequeued work unit as seen by `InMemoryQueue.worker`: the payload,
the handler outcome, and the two wall-clock instants of its
`_process_task` call. -/
structure WorkItem where
  task : TaskData
  outcome : HandlerOutcome
  tStart : Nat
  tEnd : Nat
deriving DecidableEq, Repr

/-- The worker loop (`queue.py` lines 153-165) draining a list of queued
items: each is handed to `_process_task` in turn; the loop continues
past task failures because `_process_task` converts every handler
exception into ledger state. -/
def workerDrain (l : Ledger) : List WorkItem → Ledger
  | [] => l
  | it :: rest => workerDrain (processTask l it.task it.outcome it.tStart it.tEnd) rest

/-- `TaskManager.cleanup_completed_tasks` (`task_manager.py` lines
187-202) removes a row iff it is terminal with a set `completed_at`
older than `maxAge`. -/
def isExpiredTerminal (r : TaskRecord) (now maxAge : Nat) : Bool :=
  (decide (r.status = TaskStatus.completed) || decide (r.status = TaskStatus.failed)) &&
    (match r.completedAt with
     | some c => decide (now - c > maxAge)
     | none => false)

/-- The ledger after an age-based cleanup sweep. -/
def cleanupCompletedTasks (l : Ledger) (now maxAge : Nat) : Ledger :=
  l.filter (fun e => !(isExpiredTerminal e.2 now maxAge))

/-- The task-record invariant stated by the spec (§3): once set,
`created_at ≤ started_at ≤ completed_at`; `result` only when COMPLETED;
`error` only when FAILED.  (Boolean so that concrete records decide.) -/
def recordInvOk (r : TaskRecord) : Bool :=
  (match r.startedAt with
   | some t => decide (r.createdAt ≤ t)
   | none => true) &&
  (match r.completedAt with
   | some t => decide (r.createdAt ≤ t)
   | none => true) &&
  (match r.startedAt, r.completedAt with
   | some a, some b => decide (a ≤ b)
   | _, _ => true) &&
  (!r.result.isSome || decide (r.status = TaskStatus.completed)) &&
  (!r.error.isSome || decide (r.status = TaskStatus.failed))

/-! ## Storage backends (`server/app/core/storage.py`)

Python strings (storage keys, paths, bucket names) are modelled as lists
of code points (`Str`), so that f-string concatenation is `++` and
`str.removeprefix` / `str.startswith` are the list operations below.
File contents are byte lists; the local filesystem and the S3 service
are association lists keyed by path and by `(bucket, key)`. -/

/-- A Python string as its list of code points. -/
abbrev Str := List Nat

/-- File contents. -/
abbrev Bytes := List Nat

/-- The code point of `/`. -/
def slashC : Nat := 47

/-- The code points of the S3 error code string `"404"`. -/
def c404 : Str := [52, 48, 52]

/-- `s.startswith(p)` on code-point lists (argument order: prefix first). -/
def strStartsWith : Str → Str → Bool
  | [], _ => true
  | _ :: _, [] => false
  | a :: as, b :: bs => decide (a = b) && strStartsWith as bs

/-- `s.removeprefix(p)`: drop `p` from the front of `s` when it is there,
otherwise return `s` unchanged. -/
def removePre (p s : Str) : Str :=
  if strStartsWith p s then s.drop p.length else s

/-- The local filesystem: full path ↦ file bytes (directories are
implicit, as prefixes of stored paths). -/
abbrev FS := List (Str × Bytes)

/-- The S3 service state: `(bucket, key)` ↦ object bytes.  The external
aioboto3 calls are modelled as map operations on this state; transport
faults other than a missing object are out of this map and enter the
definitions as explicit erroneous call results. -/
abbrev S3 := List ((Str × Str) × Bytes)

/-- The exceptions the storage layer sees: `FileNotFoundError`,
`IsADirectoryError`, and botocore's `ClientError` with its
`e.response["Error"]["Code"]` string. -/
inductive StorageErr
  | fileNotFound
  | isADirectory
  | clientError (code : Str)
deriving DecidableEq, Repr

/-- `base_dir / key` (`pathlib` join). -/
def joinPath (base key : Str) : Str := base ++ slashC :: key

/-- A regular file exists at `p`. -/
def pathIsFile (fs : FS) (p : Str) : Bool := (getVal fs p).isSome

/-- A directory exists at `p` (some stored file lies strictly below it). -/
def pathIsDir (fs : FS) (p : Str) : Bool :=
  fs.any (fun e => strStartsWith (p ++ [slashC]) e.1)

/-- `os.path.exists(p)`: true for files and for directories. -/
def pathExists (fs : FS) (p : Str) : Bool := pathIsFile fs p || pathIsDir fs p

/-- `LocalStorage.upload` (`storage.py` lines 60-72): stream-copy the
local file to `base_dir / key` (a missing source raises
`FileNotFoundError`, uncaught) and return the key.  The chunked copy
concatenates to the whole content, so it is modelled as one read. -/
def localUpload (fs : FS) (base localPath key : Str) :
    Except StorageErr (Str × FS) :=
  match getVal fs localPath with
  | none => Except.error StorageErr.fileNotFound
  | some b => Except.ok (key, setVal fs (joinPath base key) b)

/-- `LocalStorage.download` (`storage.py` lines 74-88): explicit
existence check raising `FileNotFoundError`, then a stream copy to
`local_path` (opening a directory raises `IsADirectoryError`). -/
def localDownload (fs : FS) (base key localPath : Str) :
    Except StorageErr FS :=
  if pathExists fs (joinPath base key) then
    match getVal fs (joinPath base key) with
    | some b => Except.ok (setVal fs localPath b)
    | none => Except.error StorageErr.isADirectory
  else Except.error StorageErr.fileNotFound

/-- `LocalStorage.delete` (`storage.py` lines 105-112): remove the file;
a missing file is only logged (`except FileNotFoundError: pass`). -/
def localDelete (fs : FS) (base key : Str) : FS :=
  delVal fs (joinPath base key)

/-- `LocalStorage.file_exists` (`storage.py` lines 130-132):
`os.path.exists` on the resolved path; a plain boolean, never an error. -/
def localFileExists (fs : FS) (base key : Str) : Bool :=
  pathExists fs (joinPath base key)

/-- The code points of `"file://"` (the scheme prepended by
`Path.as_uri`; the base directory stands in for its absolute form). -/
def fileUriPre : Str := [102, 105, 108, 101, 58, 47, 47]

/-- `LocalStorage.get_url` (`storage.py` lines 90-103): a missing file —
or any exception, all caught — yields the bare key; otherwise the
`file://` URI of the resolved path. -/
def localGetUrl (fs : FS) (base key : Str) : Str :=
  if pathExists fs (joinPath base key) then fileUriPre ++ joinPath base key
  else key

/-- Lexicographic comparison of code-point lists (Python `sorted` on
strings). -/
def strLe : Str → Str → Bool
  | [], _ => true
  | _ :: _, [] => false
  | a :: as, b :: bs =>
    if a < b then true else if b < a then false else strLe as bs

/-- Insertion into a sorted list (stable, like Python's sort). -/
def insertSortedKey (x : Str) : List Str → List Str
  | [] => [x]
  | y :: ys => if strLe x y then x :: y :: ys else y :: insertSortedKey x ys

/-- `sorted(files)`. -/
def sortKeys : List Str → List Str
  | [] => []
  | x :: xs => insertSortedKey x (sortKeys xs)

/-- An `os.scandir(dir)` entry for which `entry.is_file()` holds: a
stored file directly inside `dir` (its remainder past `dir/` is a
nonempty name with no further `/`). -/
def isDirectChildFile (dir p : Str) : Bool :=
  strStartsWith (dir ++ [slashC]) p &&
    (let name := p.drop (dir.length + 1)
     !name.isEmpty && !name.contains slashC)

/-- `entry.path` relative to the base directory
(`Path(entry.path).relative_to(self.base_dir)`). -/
def relativeToBase (base p : Str) : Str := p.drop (base.length + 1)

/-- `LocalStorage.list_files` (`storage.py` lines 114-128): nothing at
the start path → `[]`; a file → `[prefix]`; a directory → the sorted
relative paths of the `os.scandir` entries that are files.  (`scandir`
yields only the immediate children; subdirectories fail
`entry.is_file()` and are dropped, and nothing recurses into them.) -/
def localListFiles (fs : FS) (base pfx : Str) : List Str :=
  let start := joinPath base pfx
  if !pathExists fs start then []
  else if pathIsFile fs start then [pfx]
  else
    sortKeys
      (((fs.filter (fun e => isDirectChildFile start e.1)).map
        (fun e => relativeToBase base e.1)))

/-- The deployment configuration of `SourceCoopStorage`
(`storage.py` / `config.py`): bucket, endpoint, repository path (empty =
unset), and the temporary STS workaround with its real bucket and bucket
path segment (`sts_bucket_prefix`, here `stsBucketPfx`). -/
structure SourceCoopConfig where
  bucketName : Str
  endpointUrl : Str
  repositoryPath : Str
  useStsWorkaround : Bool
  stsRealBucket : Str
  stsBucketPfx : Str
deriving DecidableEq, Repr

/-- `SourceCoopStorage._get_storage_key` (`storage.py` lines 214-220):
prepend `repository_path/` when a repository path is configured. -/
def getStorageKey (cfg : SourceCoopConfig) (key : Str) : Str :=
  if cfg.repositoryPath = [] then key
  else cfg.repositoryPath ++ slashC :: key

/-- `SourceCoopStorage._strip_repository_path` (`storage.py` lines
222-226): `removeprefix(f"...path/")` when a repository path is
configured. -/
def stripRepositoryPath (cfg : SourceCoopConfig) (storageKey : Str) : Str :=
  if cfg.repositoryPath = [] then storageKey
  else removePre (cfg.repositoryPath ++ [slashC]) storageKey

/-- `SourceCoopStorage._get_actual_bucket` (`storage.py` lines 259-263):
the STS workaround targets `sts_real_bucket` instead of the configured
bucket. -/
def getActualBucket (cfg : SourceCoopConfig) : Str :=
  if cfg.useStsWorkaround then cfg.stsRealBucket else cfg.bucketName

/-- `SourceCoopStorage._get_actual_storage_key` (`storage.py` lines
265-271): repository-path rewrite, then — only under the STS
workaround — the extra `sts_bucket_prefix/` rewrite. -/
def getActualStorageKey (cfg : SourceCoopConfig) (key : Str) : Str :=
  let storageKey := getStorageKey cfg key
  if cfg.useStsWorkaround then cfg.stsBucketPfx ++ slashC :: storageKey
  else storageKey

/-- The physical `(bucket, key)` computed inside `SourceCoopStorage.upload`
(`storage.py` lines 280-281). -/
def uploadAddress (cfg : SourceCoopConfig) (key : Str) : Str × Str :=
  (getActualBucket cfg, getActualStorageKey cfg key)

/-- The physical `(bucket, key)` computed inside `SourceCoopStorage.download`
(`storage.py` lines 295-296). -/
def downloadAddress (cfg : SourceCoopConfig) (key : Str) : Str × Str :=
  (getActualBucket cfg, getActualStorageKey cfg key)

/-- The physical `(bucket, key)` computed inside `SourceCoopStorage.delete`
(`storage.py` lines 322-323). -/
def deleteAddress (cfg : SourceCoopConfig) (key : Str) : Str × Str :=
  (getActualBucket cfg, getActualStorageKey cfg key)

/-- The physical `(bucket, prefix)` computed inside
`SourceCoopStorage.list_files` (`storage.py` lines 336-337). -/
def listAddress (cfg : SourceCoopConfig) (pfx : Str) : Str × Str :=
  (getActualBucket cfg, getActualStorageKey cfg pfx)

/-- The physical `(bucket, key)` computed inside
`SourceCoopStorage.file_exists` (`storage.py` lines 363-364). -/
def fileExistsAddress (cfg : SourceCoopConfig) (key : Str) : Str × Str :=
  (getActualBucket cfg, getActualStorageKey cfg key)

/-- `SourceCoopStorage.upload` (`storage.py` lines 275-288): read the
local file (missing → `FileNotFoundError`, not a `ClientError`, so it
propagates), put the bytes at the physical address, return the logical
key.  A `ClientError` from the put is logged and re-raised unchanged. -/
def sourceCoopUpload (s3 : S3) (fs : FS) (cfg : SourceCoopConfig)
    (localPath key : Str) : Except StorageErr (Str × S3) :=
  match getVal fs localPath with
  | none => Except.error StorageErr.fileNotFound
  | some b => Except.ok (key, setVal s3 (uploadAddress cfg key) b)

/-- `SourceCoopStorage.download` (`storage.py` lines 290-302):
`download_file` of a missing object fails with a `ClientError` whose
code is `"404"`; the handler logs and re-raises every `ClientError`
unchanged; on success the bytes land at `local_path`. -/
def sourceCoopDownload (s3 : S3) (fs : FS) (cfg : SourceCoopConfig)
    (key localPath : Str) : Except StorageErr FS :=
  match getVal s3 (downloadAddress cfg key) with
  | none => Except.error (StorageErr.clientError c404)
  | some b => Except.ok (setVal fs localPath b)

/-- The `except ClientError as e: logger.error(...); raise` boundary of
`SourceCoopStorage.download`: every error passes through unchanged. -/
def downloadCatch (res : Except StorageErr FS) : Except StorageErr FS :=
  match res with
  | Except.ok v => Except.ok v
  | Except.error e => Except.error e

/-- `SourceCoopStorage.delete` (`storage.py` lines 317-329):
`delete_object` at the physical address. -/
def sourceCoopDelete (s3 : S3) (cfg : SourceCoopConfig) (key : Str) : S3 :=
  delVal s3 (deleteAddress cfg key)

/-- `head_object` against the S3 state: present → ok, missing → a
`ClientError` with code `"404"`. -/
def s3HeadObject (s3 : S3) (addr : Str × Str) : Except StorageErr Unit :=
  if (getVal s3 addr).isSome then Except.ok ()
  else Except.error (StorageErr.clientError c404)

/-- The exception handling of `SourceCoopStorage.file_exists`
(`storage.py` lines 358-372) applied to the outcome of the
`head_object` call: success → `True`; a `ClientError` with code
`"404"` → `False`; any other `ClientError` (and any non-`ClientError`
exception, which the `except` clause does not catch) → re-raised. -/
def fileExistsOfHead (res : Except StorageErr Unit) : Except StorageErr Bool :=
  match res with
  | Except.ok _ => Except.ok true
  | Except.error (StorageErr.clientError c) =>
    if c = c404 then Except.ok false
    else Except.error (StorageErr.clientError c)
  | Except.error e => Except.error e

/-- `SourceCoopStorage.file_exists` end to end. -/
def sourceCoopFileExists (s3 : S3) (cfg : SourceCoopConfig) (key : Str) :
    Except StorageErr Bool :=
  fileExistsOfHead (s3HeadObject s3 (fileExistsAddress cfg key))

/-- The `list_objects_v2` pagination against the S3 state: keys of the
objects of `bucket` whose key starts with the requested prefix (the
service's ordering of the page contents is abstracted as storage
order). -/
def s3KeyMatches (bucket pfxKey : Str) (e : (Str × Str) × Bytes) : Bool :=
  decide (e.1.1 = bucket) && strStartsWith pfxKey e.1.2

def s3ListKeys (s3 : S3) (bucket pfxKey : Str) : List Str :=
  (s3.filter (s3KeyMatches bucket pfxKey)).map (fun e => e.1.2)

/-- `SourceCoopStorage.list_files` (`storage.py` lines 331-356): list at
the physical prefix, strip the STS bucket path segment when the
workaround is active, then strip the repository path from every key. -/
def sourceCoopListFiles (s3 : S3) (cfg : SourceCoopConfig) (pfx : Str) :
    List Str :=
  let addr := listAddress cfg pfx
  let keys := s3ListKeys s3 addr.1 addr.2
  let keys1 :=
    if cfg.useStsWorkaround then
      keys.map (removePre (cfg.stsBucketPfx ++ [slashC]))
    else keys
  keys1.map (stripRepositoryPath cfg)

/-- `SourceCoopStorage.get_url` (`storage.py` lines 304-315): after lazy
initialisation (whose outcome is passed in: credential resolution may
raise) the clean URL `endpoint/bucket/storage_key` — note: the logical
bucket and the repository-path key, not the STS-rewritten ones; any
exception, all caught, yields the bare key. -/
def sourceCoopGetUrl (initRes : Except StorageErr Unit)
    (cfg : SourceCoopConfig) (key : Str) : Str :=
  match initRes with
  | Except.error _ => key
  | Except.ok _ =>
    cfg.endpointUrl ++ slashC :: (cfg.bucketName ++ slashC :: getStorageKey cfg key)

/-- The S3 state after uploading `data k` under each logical key `k` of
`ks` through `SourceCoopStorage.upload`. -/
def mkBucket (cfg : SourceCoopConfig) (ks : List Str) (data : Str → Bytes) : S3 :=
  ks.map (fun k => ((getActualBucket cfg, getActualStorageKey cfg k), data k))

/-- The constant physical key decoration of a configuration: everything
`_get_actual_storage_key` puts in front of the logical key. -/
def storagePre (cfg : SourceCoopConfig) : Str :=
  (if cfg.useStsWorkaround then cfg.stsBucketPfx ++ [slashC] else []) ++
    (if cfg.repositoryPath = [] then [] else cfg.repositoryPath ++ [slashC])

/-! ## Helper lemmas -/

theorem getVal_setVal_self {α β : Type} [DecidableEq α]
    (l : List (α × β)) (k : α) (v : β) : getVal (setVal l k v) k = some v := by
  induction l with
  | nil => simp [getVal, setVal]
  | cons e rest ih =>
    by_cases h : e.1 = k <;> simp [getVal, setVal, h, ih]

theorem getVal_setVal_ne {α β : Type} [DecidableEq α]
    (l : List (α × β)) (k k' : α) (v : β) (hne : k' ≠ k) :
    getVal (setVal l k v) k' = getVal l k' := by
  have hkk : ¬(k = k') := fun h => hne h.symm
  induction l with
  | nil => simp [getVal, setVal, hkk]
  | cons e rest ih =>
    by_cases h : e.1 = k
    · simp [getVal, setVal, h, hkk]
    · by_cases h' : e.1 = k' <;> simp [getVal, setVal, h, h', hne, ih]

theorem strStartsWith_self_append (p r : Str) :
    strStartsWith p (p ++ r) = true := by
  induction p with
  | nil => simp [strStartsWith]
  | cons a as ih => simp [strStartsWith, ih]

theorem strStartsWith_append_same (q p k : Str) :
    strStartsWith (q ++ p) (q ++ k) = strStartsWith p k := by
  induction q with
  | nil => simp
  | cons a as ih => simp [strStartsWith, ih]

theorem removePre_append (p r : Str) : removePre p (p ++ r) = r := by
  simp [removePre, strStartsWith_self_append]

theorem getStorageKey_length (cfg : SourceCoopConfig) (k : Str) :
    k.length ≤ (getStorageKey cfg k).length := by
  unfold getStorageKey
  split
  · simp
  · simp
    omega

theorem getActualStorageKey_eq (cfg : SourceCoopConfig) (k : Str) :
    getActualStorageKey cfg k = storagePre cfg ++ k := by
  unfold getActualStorageKey getStorageKey storagePre
  by_cases h1 : cfg.useStsWorkaround <;> by_cases h2 : cfg.repositoryPath = [] <;>
    simp [h1, h2]

theorem stripRepositoryPath_getStorageKey (cfg : SourceCoopConfig) (k : Str) :
    stripRepositoryPath cfg (getStorageKey cfg k) = k := by
  unfold stripRepositoryPath getStorageKey
  by_cases h : cfg.repositoryPath = []
  · simp [h]
  · have := removePre_append (cfg.repositoryPath ++ [slashC]) k
    simpa [h, List.append_assoc] using this

theorem strip_actual_nosts (cfg : SourceCoopConfig)
    (h : cfg.useStsWorkaround = false) (k : Str) :
    stripRepositoryPath cfg (getActualStorageKey cfg k) = k := by
  rw [getActualStorageKey, h]
  simpa using stripRepositoryPath_getStorageKey cfg k

theorem strip_actual_sts (cfg : SourceCoopConfig)
    (h : cfg.useStsWorkaround = true) (k : Str) :
    stripRepositoryPath cfg
      (removePre (cfg.stsBucketPfx ++ [slashC]) (getActualStorageKey cfg k)) = k := by
  have h2 : getActualStorageKey cfg k
      = (cfg.stsBucketPfx ++ [slashC]) ++ getStorageKey cfg k := by
    simp [getActualStorageKey, h]
  rw [h2, removePre_append]
  exact stripRepositoryPath_getStorageKey cfg k

theorem processTask_getVal_self (l : Ledger) (t : TaskData) (o : HandlerOutcome)
    (a b : Nat) (r : TaskRecord) (h : getVal l t.id = some r) :
    getVal (processTask l t o a b) t.id
      = some (finishRecord (startRecord r a) o b) := by
  unfold processTask processTaskFinish processTaskStart
  simp [h, getVal_setVal_self]

theorem processTask_getVal_ne (l : Ledger) (t : TaskData) (o : HandlerOutcome)
    (a b : Nat) (tid : String) (hne : tid ≠ t.id) :
    getVal (processTask l t o a b) tid = getVal l tid := by
  unfold processTask processTaskFinish processTaskStart
  cases h : getVal l t.id with
  | none => simp
  | some r => simp [h, getVal_setVal_self, getVal_setVal_ne _ _ _ _ hne]

theorem processTask_getVal_isSome (l : Ledger) (t : TaskData) (o : HandlerOutcome)
    (a b : Nat) (tid : String) (h : (getVal l tid).isSome = true) :
    (getVal (processTask l t o a b) tid).isSome = true := by
  by_cases he : tid = t.id
  · subst he
    obtain ⟨r, hr⟩ := Option.isSome_iff_exists.mp h
    simp [processTask_getVal_self l t o a b r hr]
  · rw [processTask_getVal_ne _ _ _ _ _ _ he]
    exact h

theorem workerDrain_getVal_not_mem (l : Ledger) (items : List WorkItem)
    (tid : String) (h : tid ∉ items.map (fun it => it.task.id)) :
    getVal (workerDrain l items) tid = getVal l tid := by
  induction items generalizing l with
  | nil => rfl
  | cons it rest ih =>
    simp only [List.map_cons, List.mem_cons] at h
    push_neg at h
    rw [workerDrain, ih _ h.2, processTask_getVal_ne _ _ _ _ _ _ h.1]

theorem map_id_of {α : Type} (f : α → α) (l : List α) (h : ∀ x ∈ l, f x = x) :
    List.map f l = l := by
  induction l with
  | nil => rfl
  | cons a l ih =>
    simp only [List.map_cons, h a (List.mem_cons_self a l),
      ih (fun x hx => h x (List.mem_cons_of_mem _ hx))]

theorem s3ListKeys_mkBucket (cfg : SourceCoopConfig) (ks : List Str)
    (data : Str → Bytes) (p : Str) :
    s3ListKeys (mkBucket cfg ks data) (getActualBucket cfg) (getActualStorageKey cfg p)
      = (ks.filter (fun k => strStartsWith p k)).map
          (fun k => getActualStorageKey cfg k) := by
  induction ks with
  | nil => rfl
  | cons k ks ih =>
    by_cases h : strStartsWith p k = true <;>
      simp [mkBucket, s3ListKeys, s3KeyMatches, List.filter_cons,
        getActualStorageKey_eq, strStartsWith_append_same, h] <;>
      simpa [mkBucket, s3ListKeys, getActualStorageKey_eq] using ih

/-! ## Claim theorems -/

/-- Claim C1, refuted on the code: a task whose `cancel()` call returned
`True` does subsequently begin executing.  Concretely: submit one
inference task, cancel it while PENDING (returns `True`, marks it
FAILED), yet the payload is still in the queue; when a worker dequeues
it, `_process_task`'s only guard is ledger membership, so the ledger
row transitions to RUNNING, the handler is invoked, and a successful
handler even overwrites the cancelled row to COMPLETED. -/
theorem C1_cancelled_task_still_runs :
    let s0 : QueueState := ⟨[], []⟩
    let s1 := (submit s0 "t1" TaskType.inference (some "p1") 0).2
    let c := cancel s1 "t1" 1
    let td : TaskData := ⟨"t1", "inference", some "p1"⟩
    c.1 = true ∧
    c.2.queue = [td] ∧
    (getVal (processTaskStart c.2.activeTasks td 2) "t1").map TaskRecord.status
      = some TaskStatus.running ∧
    processorInvoked c.2.activeTasks td ["inference"] = true ∧
    (getVal (processTask c.2.activeTasks td (HandlerOutcome.success "r") 2 3)
        "t1").map TaskRecord.status = some TaskStatus.completed := by
  decide

/-- Claim C2, counterexample to the claimed error string: cancelling a
PENDING task stores `error = "Task cancelled"`, not `"cancelled"`. -/
theorem C2_error_string_counterexample :
    let s1 := (submit ⟨[], []⟩ "t1" TaskType.inference none 0).2
    (cancel s1 "t1" 5).1 = true ∧
    (getVal (cancel s1 "t1" 5).2.activeTasks "t1").map TaskRecord.error
      = some (some "Task cancelled") ∧
    (some "Task cancelled" : Option String) ≠ some "cancelled" := by
  decide

/-- Claim C2 as amended: for every known task id, `cancel` returns `True`
iff the status is PENDING at the call, in which case the row transitions
straight to FAILED with `error = "Task cancelled"` (not `"cancelled"`)
and `completed_at = updated_at = now`, the queue untouched; for every
other status it returns `False` and leaves the state unchanged. -/
theorem C2_cancel_iff_pending (s : QueueState) (taskId : String)
    (r : TaskRecord) (now : Nat) (h : getVal s.activeTasks taskId = some r) :
    ((cancel s taskId now).1 = true ↔ r.status = TaskStatus.pending) ∧
    (r.status = TaskStatus.pending →
      (cancel s taskId now).2.activeTasks
        = setVal s.activeTasks taskId
            { r with
                status := TaskStatus.failed
                error := some "Task cancelled"
                updatedAt := now
                completedAt := some now } ∧
      (cancel s taskId now).2.queue = s.queue) ∧
    (r.status ≠ TaskStatus.pending → (cancel s taskId now).2 = s) := by
  unfold cancel
  rw [h]
  by_cases hp : r.status = TaskStatus.pending <;> simp [hp]

theorem C2_cancel_iff_pending_witness :
    (cancel (submit ⟨[], []⟩ "t1" TaskType.inference none 0).2 "t1" 5).1 = true :=
  (C2_cancel_iff_pending (submit ⟨[], []⟩ "t1" TaskType.inference none 0).2 "t1"
      ⟨TaskStatus.pending, "inference", none, 0, 0, none, none, none, none⟩ 5
      (by decide)).1.mpr rfl

/-- Claim C3, refuted on the code at the same trace as C1: submitting and
then cancelling preserve the task-record invariant, but worker
processing of the cancelled (already FAILED) row does not — the
successful handler leaves `error = "Task cancelled"` in place while
setting status COMPLETED and a result, so `error` is non-null on a
non-FAILED row. -/
theorem C3_invariant_broken_on_cancelled_task :
    let s1 : QueueState := (submit ⟨[], []⟩ "t1" TaskType.inference (some "p1") 0).2
    let s2 := (cancel s1 "t1" 1).2
    let td : TaskData := ⟨"t1", "inference", some "p1"⟩
    let final := getVal (processTask s2.activeTasks td
      (HandlerOutcome.success "r") 2 3) "t1"
    (getVal s1.activeTasks "t1").map recordInvOk = some true ∧
    (getVal s2.activeTasks "t1").map recordInvOk = some true ∧
    final.map recordInvOk = some false ∧
    final.map TaskRecord.status = some TaskStatus.completed ∧
    final.map TaskRecord.error = some (some "Task cancelled") ∧
    final.map TaskRecord.result = some (some "r") := by
  decide

/-- Claim C4, counterexample: `TaskManager.get_task_status` (one of the
two status-lookup operations the claim covers) does not fail on an
unknown id — it returns the fabricated default status PENDING, exactly
as its own test suite asserts. -/
theorem C4_tm_default_counterexample :
    tmGetTaskStatus [] "missing" = TaskStatus.pending ∧
    getVal ([] : Ledger) "missing" = none := by
  decide

/-- Claim C4 as amended: for a task id not in the ledger,
`InMemoryQueue.get_status` fails with the not-found `ValueError` and
never returns a record, while `TaskManager.get_task_status` returns the
default status PENDING instead of failing. -/
theorem C4_unknown_id_lookup (s : QueueState) (tasks : Ledger) (taskId : String)
    (h1 : getVal s.activeTasks taskId = none)
    (h2 : getVal tasks taskId = none) :
    getStatus s taskId = Except.error ("Task " ++ taskId ++ " not found") ∧
    tmGetTaskStatus tasks taskId = TaskStatus.pending := by
  constructor
  · simp [getStatus, h1]
  · simp [tmGetTaskStatus, h2]

theorem C4_unknown_id_lookup_witness :
    getStatus ⟨[], []⟩ "missing"
        = Except.error ("Task " ++ "missing" ++ " not found") ∧
      tmGetTaskStatus [] "missing" = TaskStatus.pending :=
  C4_unknown_id_lookup ⟨[], []⟩ [] "missing" rfl rfl

/-- Claim C9, refuted on the code: `LocalStorage.list_files` uses a
single non-recursive `os.scandir` and keeps only direct-child files, so
a file nested deeper below the prefix directory is not returned.
Concretely: with only the file `b/a/d/c` on disk (base directory `b`),
`list_files("a")` returns `[]` although `a/d/c` lies in the subtree of
`a` (second conjunct) and is stored (third conjunct). -/
theorem C9_local_list_not_recursive :
    let base : Str := [98]
    let nested : Str := [97, 47, 100, 47, 99]
    let fs : FS := [(joinPath base nested, [1, 2, 3])]
    localListFiles fs base [97] = [] ∧
    strStartsWith ([97] ++ [slashC]) nested = true ∧
    getVal fs (joinPath base nested) = some [1, 2, 3] := by
  decide

/-- Claim C5: a worker drains its queue with every handler exception
caught at the per-task boundary — each drained task's ledger row ends
in the matching terminal state (`failed` with `error = str(e)` and
`completed_at` set, or `completed` with the result), and this holds for
every queued item, so a failing task never stops the worker from
serving the subsequent ones. -/
theorem C5_worker_survives_task_failures (l : Ledger) (items : List WorkItem) :
    (items.map (fun it => it.task.id)).Nodup →
    (∀ it ∈ items, (getVal l it.task.id).isSome = true) →
    ∀ it ∈ items, ∃ r,
      getVal (workerDrain l items) it.task.id = some r ∧
      (∀ msg, it.outcome = HandlerOutcome.failure msg →
        r.status = TaskStatus.failed ∧ r.error = some msg ∧
        r.completedAt = some it.tEnd) ∧
      (∀ res, it.outcome = HandlerOutcome.success res →
        r.status = TaskStatus.completed ∧ r.result = some res ∧
        r.completedAt = some it.tEnd) := by
  induction items generalizing l with
  | nil =>
    intro _ _ it hit
    cases hit
  | cons hd rest ih =>
    intro hnodup hmem it hit
    rw [List.map_cons] at hnodup
    obtain ⟨hnot, hrest⟩ := List.nodup_cons.mp hnodup
    rw [workerDrain]
    rcases List.mem_cons.mp hit with rfl | hr
    · obtain ⟨r0, hr0⟩ :=
        Option.isSome_iff_exists.mp (hmem it (List.mem_cons_self _ _))
      refine ⟨finishRecord (startRecord r0 it.tStart) it.outcome it.tEnd, ?_, ?_, ?_⟩
      · rw [workerDrain_getVal_not_mem _ _ _ hnot,
          processTask_getVal_self _ _ _ _ _ _ hr0]
      · intro msg hm
        simp [hm, finishRecord, startRecord]
      · intro res hm
        simp [hm, finishRecord, startRecord]
    · refine ih (processTask l hd.task hd.outcome hd.tStart hd.tEnd) hrest ?_ it hr
      intro x hx
      exact processTask_getVal_isSome _ _ _ _ _ _
        (hmem x (List.mem_cons_of_mem _ hx))

theorem C5_worker_survives_task_failures_witness :
    ∃ r,
      getVal
        (workerDrain
          ((submit (submit ⟨[], []⟩ "t1" TaskType.inference none 0).2
              "t2" TaskType.polygonize none 0).2).activeTasks
          [⟨⟨"t1", "inference", none⟩, HandlerOutcome.failure "boom", 1, 2⟩,
           ⟨⟨"t2", "polygonize", none⟩, HandlerOutcome.success "ok", 3, 4⟩])
        "t1" = some r ∧
      r.status = TaskStatus.failed ∧ r.error = some "boom" ∧
      r.completedAt = some 2 := by
  obtain ⟨r, hr, hf, _⟩ :=
    C5_worker_survives_task_failures
      ((submit (submit ⟨[], []⟩ "t1" TaskType.inference none 0).2
          "t2" TaskType.polygonize none 0).2).activeTasks
      [⟨⟨"t1", "inference", none⟩, HandlerOutcome.failure "boom", 1, 2⟩,
       ⟨⟨"t2", "polygonize", none⟩, HandlerOutcome.success "ok", 3, 4⟩]
      (by decide) (by decide)
      ⟨⟨"t1", "inference", none⟩, HandlerOutcome.failure "boom", 1, 2⟩
      (List.mem_cons_self _ _)
  exact ⟨r, hr, hf "boom" rfl⟩

/-- Claim C6: under the STS workaround every one of the five operations
resolves the same logical key to the same physical `(bucket, key)` pair
(`upload`, `download`, `delete`, `list_files` on its prefix, and
`file_exists` all call `_get_actual_bucket` / `_get_actual_storage_key`),
the physical key always differs from the logical key, and the physical
bucket is the STS real bucket rather than the configured one. -/
theorem C6_sts_rewrite_symmetric (cfg : SourceCoopConfig)
    (h : cfg.useStsWorkaround = true) (k : Str) :
    uploadAddress cfg k = downloadAddress cfg k ∧
    downloadAddress cfg k = deleteAddress cfg k ∧
    deleteAddress cfg k = listAddress cfg k ∧
    listAddress cfg k = fileExistsAddress cfg k ∧
    (uploadAddress cfg k).2 ≠ k ∧
    (uploadAddress cfg k).1 = cfg.stsRealBucket := by
  refine ⟨rfl, rfl, rfl, rfl, ?_, ?_⟩
  · intro he
    have h1 := getStorageKey_length cfg k
    have h2 := congrArg List.length he
    simp [uploadAddress, getActualStorageKey, h] at h2
    omega
  · simp [uploadAddress, getActualBucket, h]

theorem C6_sts_rewrite_symmetric_witness :
    uploadAddress ⟨[1], [2], [3], true, [4], [5]⟩ [9]
        = downloadAddress ⟨[1], [2], [3], true, [4], [5]⟩ [9] ∧
      downloadAddress ⟨[1], [2], [3], true, [4], [5]⟩ [9]
        = deleteAddress ⟨[1], [2], [3], true, [4], [5]⟩ [9] ∧
      deleteAddress ⟨[1], [2], [3], true, [4], [5]⟩ [9]
        = listAddress ⟨[1], [2], [3], true, [4], [5]⟩ [9] ∧
      listAddress ⟨[1], [2], [3], true, [4], [5]⟩ [9]
        = fileExistsAddress ⟨[1], [2], [3], true, [4], [5]⟩ [9] ∧
      (uploadAddress ⟨[1], [2], [3], true, [4], [5]⟩ [9]).2 ≠ [9] ∧
      (uploadAddress ⟨[1], [2], [3], true, [4], [5]⟩ [9]).1
        = (⟨[1], [2], [3], true, [4], [5]⟩ : SourceCoopConfig).stsRealBucket :=
  C6_sts_rewrite_symmetric ⟨[1], [2], [3], true, [4], [5]⟩ rfl [9]

/-- Claim C7: for both backends and every credential mode, uploading a
file under a key and downloading that key back yields the original
bytes; and for any configuration, listing a bucket populated through
`upload` returns exactly the matching logical keys — the repository
path (and the STS segment) already stripped. -/
theorem C7_roundtrip_and_stripped_list :
    (∀ (fs : FS) (base lp lp2 k : Str) (b : Bytes), getVal fs lp = some b →
      ∃ fs1, localUpload fs base lp k = Except.ok (k, fs1) ∧
        ∃ fs2, localDownload fs1 base k lp2 = Except.ok fs2 ∧
          getVal fs2 lp2 = some b) ∧
    (∀ (cfg : SourceCoopConfig) (s3 : S3) (fs : FS) (lp lp2 k : Str) (b : Bytes),
      getVal fs lp = some b →
      ∃ s31, sourceCoopUpload s3 fs cfg lp k = Except.ok (k, s31) ∧
        ∃ fs2, sourceCoopDownload s31 fs cfg k lp2 = Except.ok fs2 ∧
          getVal fs2 lp2 = some b) ∧
    (∀ (cfg : SourceCoopConfig) (ks : List Str) (data : Str → Bytes) (p : Str),
      sourceCoopListFiles (mkBucket cfg ks data) cfg p
        = ks.filter (fun k => strStartsWith p k)) := by
  refine ⟨?_, ?_, ?_⟩
  · intro fs base lp lp2 k b h
    refine ⟨setVal fs (joinPath base k) b, by simp [localUpload, h], ?_⟩
    refine ⟨setVal (setVal fs (joinPath base k) b) lp2 b, ?_,
      getVal_setVal_self _ _ _⟩
    simp [localDownload, pathExists, pathIsFile, getVal_setVal_self]
  · intro cfg s3 fs lp lp2 k b h
    refine ⟨setVal s3 (uploadAddress cfg k) b, by simp [sourceCoopUpload, h], ?_⟩
    refine ⟨setVal fs lp2 b, ?_, getVal_setVal_self _ _ _⟩
    have hd : downloadAddress cfg k = uploadAddress cfg k := rfl
    simp [sourceCoopDownload, hd, getVal_setVal_self]
  · intro cfg ks data p
    simp only [sourceCoopListFiles, listAddress]
    rw [s3ListKeys_mkBucket]
    cases h : cfg.useStsWorkaround
    · have hc : ∀ x, stripRepositoryPath cfg (getActualStorageKey cfg x) = x :=
        strip_actual_nosts cfg h
      simp only [h, Bool.false_eq_true, if_false, List.map_map]
      exact map_id_of _ _ (fun x _ => hc x)
    · have hc : ∀ x, stripRepositoryPath cfg
          (removePre (cfg.stsBucketPfx ++ [slashC]) (getActualStorageKey cfg x))
            = x :=
        strip_actual_sts cfg h
      simp only [h, if_true, List.map_map]
      exact map_id_of _ _ (fun x _ => hc x)

theorem C7_roundtrip_and_stripped_list_witness :
    (∃ fs1, localUpload [([5], [9, 9])] [0] [5] [6] = Except.ok ([6], fs1) ∧
      ∃ fs2, localDownload fs1 [0] [6] [7] = Except.ok fs2 ∧
        getVal fs2 [7] = some [9, 9]) ∧
    (∃ s31, sourceCoopUpload [] [([5], [9, 9])] ⟨[1], [2], [3], true, [4], [5]⟩
        [5] [6] = Except.ok ([6], s31) ∧
      ∃ fs2, sourceCoopDownload s31 [([5], [9, 9])] ⟨[1], [2], [3], true, [4], [5]⟩
          [6] [7] = Except.ok fs2 ∧
        getVal fs2 [7] = some [9, 9]) :=
  ⟨C7_roundtrip_and_stripped_list.1 [([5], [9, 9])] [0] [5] [7] [6] [9, 9]
      (by decide),
   C7_roundtrip_and_stripped_list.2.1 ⟨[1], [2], [3], true, [4], [5]⟩ []
      [([5], [9, 9])] [5] [7] [6] [9, 9] (by decide)⟩

/-- Claim C8: "not found" is normalized — on both backends a missing
object makes `file_exists` return `False` (no exception) and `download`
fail with the backend's not-found error (`FileNotFoundError` locally, a
`ClientError` with code `"404"` on Source Coop); every other backend
failure passes through the operation's exception handling unchanged. -/
theorem C8_not_found_normalization :
    (∀ (fs : FS) (base k : Str), pathExists fs (joinPath base k) = false →
      localFileExists fs base k = false) ∧
    (∀ (fs : FS) (base k lp : Str), pathExists fs (joinPath base k) = false →
      localDownload fs base k lp = Except.error StorageErr.fileNotFound) ∧
    (∀ (s3 : S3) (cfg : SourceCoopConfig) (k : Str),
      getVal s3 (fileExistsAddress cfg k) = none →
      sourceCoopFileExists s3 cfg k = Except.ok false) ∧
    (∀ (s3 : S3) (fs : FS) (cfg : SourceCoopConfig) (k lp : Str),
      getVal s3 (downloadAddress cfg k) = none →
      sourceCoopDownload s3 fs cfg k lp
        = Except.error (StorageErr.clientError c404)) ∧
    (∀ c : Str, c ≠ c404 →
      fileExistsOfHead (Except.error (StorageErr.clientError c))
        = Except.error (StorageErr.clientError c)) ∧
    (∀ e : StorageErr, downloadCatch (Except.error e) = Except.error e) := by
  refine ⟨?_, ?_, ?_, ?_, ?_, ?_⟩
  · intro fs base k h
    simpa [localFileExists] using h
  · intro fs base k lp h
    simp [localDownload, h]
  · intro s3 cfg k h
    simp [sourceCoopFileExists, s3HeadObject, h, fileExistsOfHead]
  · intro s3 fs cfg k lp h
    simp [sourceCoopDownload, h]
  · intro c hc
    simp [fileExistsOfHead, hc]
  · intro e
    rfl

theorem C8_not_found_normalization_witness :
    localFileExists [] [0] [1] = false ∧
    localDownload [] [0] [1] [2] = Except.error StorageErr.fileNotFound ∧
    sourceCoopFileExists [] ⟨[1], [2], [], false, [], []⟩ [7] = Except.ok false ∧
    sourceCoopDownload [] [] ⟨[1], [2], [], false, [], []⟩ [7] [8]
      = Except.error (StorageErr.clientError c404) ∧
    fileExistsOfHead (Except.error (StorageErr.clientError [53]))
      = Except.error (StorageErr.clientError [53]) ∧
    downloadCatch (Except.error StorageErr.fileNotFound)
      = Except.error StorageErr.fileNotFound :=
  ⟨C8_not_found_normalization.1 [] [0] [1] (by decide),
   C8_not_found_normalization.2.1 [] [0] [1] [2] (by decide),
   C8_not_found_normalization.2.2.1 [] ⟨[1], [2], [], false, [], []⟩ [7]
     (by decide),
   C8_not_found_normalization.2.2.2.1 [] [] ⟨[1], [2], [], false, [], []⟩ [7] [8]
     (by decide),
   C8_not_found_normalization.2.2.2.2.1 [53] (by decide),
   C8_not_found_normalization.2.2.2.2.2 StorageErr.fileNotFound⟩

/-- Claim C10, counterexample to the missing-object fallback on Source
Coop: `SourceCoopStorage.get_url` performs no existence check at all, so
with working credentials it returns the constructed URL for a missing
object instead of the bare key.  Concretely: against an empty S3 state
the object under key `[9]` is missing (`file_exists` says so), yet
`get_url` returns `endpoint/bucket/storage_key`, which differs from the
key. -/
theorem C10_sc_url_for_missing_counterexample :
    sourceCoopFileExists [] ⟨[1], [2], [3], false, [], []⟩ [9] = Except.ok false ∧
    sourceCoopGetUrl (Except.ok ()) ⟨[1], [2], [3], false, [], []⟩ [9]
      = [2] ++ slashC ::
          ([1] ++ slashC :: getStorageKey ⟨[1], [2], [3], false, [], []⟩ [9]) ∧
    sourceCoopGetUrl (Except.ok ()) ⟨[1], [2], [3], false, [], []⟩ [9] ≠ [9] :=
  ⟨rfl, rfl, by decide⟩

/-- Claim C10 as amended: `get_url` never raises on either backend.  On
the Local backend a missing object — or any caught failure — silently
yields the bare key.  On Source Coop only a caught exception (such as a
failed lazy credential initialisation) yields the bare key: the
operation performs no existence check, so whenever initialisation
succeeds it returns the constructed URL `endpoint/bucket/storage_key`
even for a missing object. -/
theorem C10_get_url_fallback_amended :
    (∀ (fs : FS) (base k : Str),
      localGetUrl fs base k = fileUriPre ++ joinPath base k ∨
      localGetUrl fs base k = k) ∧
    (∀ (fs : FS) (base k : Str), pathExists fs (joinPath base k) = false →
      localGetUrl fs base k = k) ∧
    (∀ (res : Except StorageErr Unit) (cfg : SourceCoopConfig) (k : Str),
      sourceCoopGetUrl res cfg k
          = cfg.endpointUrl ++ slashC ::
              (cfg.bucketName ++ slashC :: getStorageKey cfg k) ∨
      sourceCoopGetUrl res cfg k = k) ∧
    (∀ (e : StorageErr) (cfg : SourceCoopConfig) (k : Str),
      sourceCoopGetUrl (Except.error e) cfg k = k) ∧
    (∀ (cfg : SourceCoopConfig) (k : Str),
      sourceCoopGetUrl (Except.ok ()) cfg k
        = cfg.endpointUrl ++ slashC ::
            (cfg.bucketName ++ slashC :: getStorageKey cfg k)) := by
  refine ⟨?_, ?_, ?_, ?_, ?_⟩
  · intro fs base k
    cases h : pathExists fs (joinPath base k)
    · right
      simp [localGetUrl, h]
    · left
      simp [localGetUrl, h]
  · intro fs base k h
    simp [localGetUrl, h]
  · intro res cfg k
    cases res with
    | ok u => left; rfl
    | error e => right; rfl
  · intro e cfg k
    rfl
  · intro cfg k
    rfl

theorem C10_get_url_fallback_amended_witness :
    localGetUrl [] [0] [1] = [1] ∧
    sourceCoopGetUrl (Except.ok ()) ⟨[1], [2], [3], false, [], []⟩ [9]
      = [2] ++ slashC ::
          ([1] ++ slashC :: getStorageKey ⟨[1], [2], [3], false, [], []⟩ [9]) :=
  ⟨C10_get_url_fallback_amended.2.1 [] [0] [1] (by decide),
   C10_get_url_fallback_amended.2.2.2.2 ⟨[1], [2], [3], false, [], []⟩ [9]⟩

end FTW
